import Mathlib

/-! Shallow embedding of the connection-establishment core (`src/connect.rs`) of
the `wreq` HTTP client: the destination and proxy data model, the connection
dispatcher (`ConnectorService`) with its SOCKS / HTTP-CONNECT / direct branches,
the timeout wrapper, the builder's two connector shapes, and the uniform
connection handle (`Conn`) with its TLS-info capability delegation chain.

External collaborators (TCP connect, TLS handshake, SOCKS handshake, CONNECT
tunnel negotiation) are abstracted as an `Oracle` of effectful results, and each
connect function additionally returns the list of externally visible `Event`s
it performs, in order, so that properties about which endpoint is contacted
with which arguments are statable. -/

namespace Wreq

/-- A request URI, reduced to the parts the dispatcher inspects: scheme
(`uri.scheme()` / `uri.scheme_str()`), host and port. -/
structure Uri where
  scheme : Option String
  host : Option String
  port : Option Nat
  deriving DecidableEq, Repr

/-- A proxy's custom header set. -/
abbrev HeaderMap := List (String × String)

/-- `Intercepted` (crate `proxy`): the outcome of proxy matching — the proxy
URI, optional basic-auth header value, optional custom headers for the CONNECT
request, and the raw credentials used by SOCKS variants. -/
structure Intercepted where
  uri : Uri
  basicAuth : Option String
  customHeaders : Option HeaderMap
  rawAuth : Option (String × String)
  deriving DecidableEq, Repr

/-- `Dst` (core client): the destination descriptor — target URI plus an
optional pre-resolved proxy interception. -/
structure Dst where
  uri : Uri
  proxy_intercepted : Option Intercepted
  deriving DecidableEq, Repr

/-- `Dst::take_proxy_intercepted`: removes and returns the pre-resolved
interception. -/
def Dst.take_proxy_intercepted (d : Dst) : Option Intercepted × Dst :=
  (d.proxy_intercepted, { d with proxy_intercepted := none })

/-- `Dst::set_uri`: overwrites the destination URI (used by the plaintext
proxy rewrite). -/
def Dst.set_uri (d : Dst) (u : Uri) : Dst :=
  { d with uri := u }

/-- `Matcher` (crate `proxy`): a proxy rule; its predicate semantics
(scheme/host/port/no-proxy list) are owned by the matcher and out of core
scope, so a matcher is just its `intercept` function. -/
structure ProxyMatcher where
  intercept : Uri → Option Intercepted

/-- The matcher scan of `ConnectorService::call`: first rule whose `intercept`
yields a result wins. -/
def findIntercept : List ProxyMatcher → Uri → Option Intercepted
  | [], _ => none
  | p :: ps, uri =>
    match p.intercept uri with
    | some i => some i
    | none => findIntercept ps uri

/-- The boxed error type at the dispatcher boundary: the classified timeout
error (`TimedOut`), the bad-host classification error (`Error::uri_bad_host`),
the tower timeout `Elapsed` error (produced by a timeout layer before the
error-mapping layer normalizes it), and opaque transport/TLS/tunnel errors
distinguished by a code. -/
inductive ConnError where
  | timedOut
  | uriBadHost
  | elapsed
  | boxed (code : Nat)
  deriving DecidableEq, Repr

/-- The state of an established TLS session: the peer certificate (if any)
with its DER encoding attempt (`to_der().ok()`, inner `none` when the encoding
fails) and the selected ALPN protocol. -/
structure Ssl where
  peerCert : Option (Option (List Nat))
  selectedAlpn : Option String
  deriving DecidableEq, Repr

/-- `TlsInfo` (crate `tls`): the DER-encoded peer certificate surfaced on the
connected descriptor. -/
structure TlsInfo where
  peerCertificate : Option (List Nat)
  deriving DecidableEq, Repr

/-- A TCP socket: the address it was connected to and its current TCP_NODELAY
option. -/
structure TcpSock where
  addr : Uri
  nodelay : Bool
  deriving DecidableEq, Repr

/-- The concrete transport stacks that can sit beneath the uniform connection
handle, one constructor per wrapper type: `tokio::net::TcpStream`, `TokioIo`,
`tokio_boring2::SslStream`, the two variants of `MaybeHttpsStream`,
`BoringTlsConn` (whose field is the `TokioIo<SslStream<_>>` it wraps), and the
tracing `Verbose` decorator. -/
inductive Transport where
  | tcp (sock : TcpSock)
  | tokioIo (inner : Transport)
  | ssl (s : Ssl) (inner : Transport)
  | mHttp (inner : Transport)
  | mHttps (inner : Transport)
  | boring (inner : Transport)
  | verbose (id : Nat) (inner : Transport)
  deriving DecidableEq, Repr

/-- The TLS info a `tokio_boring2::SslStream` reports from its own session:
`ssl().peer_certificate().and_then(|c| c.to_der().ok()).map(...)`. -/
def sslPeerTlsInfo (s : Ssl) : Option TlsInfo :=
  (s.peerCert.bind id).map fun c => { peerCertificate := some c }

/-- The `TlsInfoFactory` delegation chain, one equation per `impl` in
`connect.rs`: plain TCP yields none; `TokioIo`, `BoringTlsConn`, `Verbose` and
`MaybeHttpsStream::Https` delegate inward; `MaybeHttpsStream::Http` yields
none; `SslStream` over a direct TCP stack reports its own peer certificate,
while `SslStream` over a tunneled `MaybeHttpsStream` delegates to the inner
stream (`self.get_ref().inner().tls_info()`). No other instantiation
implements the trait. -/
def Transport.tlsInfo : Transport → Option TlsInfo
  | .tcp _ => none
  | .tokioIo inner => inner.tlsInfo
  | .ssl s (.tokioIo (.tokioIo (.tcp _))) => sslPeerTlsInfo s
  | .ssl _ (.tokioIo (.mHttp inner)) => Transport.tlsInfo (.mHttp inner)
  | .ssl _ (.tokioIo (.mHttps inner)) => Transport.tlsInfo (.mHttps inner)
  | .ssl _ _ => none
  | .mHttp _ => none
  | .mHttps inner => inner.tlsInfo
  | .boring inner => inner.tlsInfo
  | .verbose _ inner => inner.tlsInfo

/-- `Connected` (core client): the connection metadata descriptor — the
proxy-form flag, the negotiated-h2 flag and the optional extra TLS info. -/
structure Connected where
  isProxy : Bool
  negotiatedH2 : Bool
  extraTlsInfo : Option TlsInfo
  deriving DecidableEq, Repr

/-- `Connected::new`: fresh descriptor. -/
def Connected.new : Connected :=
  { isProxy := false, negotiatedH2 := false, extraTlsInfo := none }

/-- `Connected::proxy`: records the proxy-form flag. -/
def Connected.proxy (c : Connected) (b : Bool) : Connected :=
  { c with isProxy := b }

/-- `Connected::negotiated_h2`: records that ALPN selected h2. -/
def Connected.negotiated_h2 (c : Connected) : Connected :=
  { c with negotiatedH2 := true }

/-- `Connected::extra`: attaches the TLS info to the descriptor. -/
def Connected.extra (c : Connected) (t : TlsInfo) : Connected :=
  { c with extraTlsInfo := some t }

/-- The `Connection::connected` delegation: the two `BoringTlsConn` impls in
`connect.rs` report the metadata of the transport beneath the TLS layer
(`self.inner.inner().get_ref().connected()`) and add the negotiated-h2 flag
exactly when `selected_alpn_protocol() == Some(b"h2")`; the wrappers
(`TokioIo`, `Verbose`, `MaybeHttpsStream`, `SslStream`) delegate inward, and a
plain TCP stream reports a fresh descriptor. -/
def Transport.connected : Transport → Connected
  | .tcp _ => Connected.new
  | .tokioIo inner => inner.connected
  | .ssl _ inner => inner.connected
  | .mHttp inner => inner.connected
  | .mHttps inner => inner.connected
  | .boring (.tokioIo (.ssl s base)) =>
    if s.selectedAlpn = some "h2" then (Transport.connected base).negotiated_h2
    else Transport.connected base
  | .boring inner => inner.connected
  | .verbose _ inner => inner.connected

/-- `sealed::Conn`: the uniform connection handle — the boxed transport, the
is-plaintext-proxy flag and the tls-info flag. -/
structure Conn where
  inner : Transport
  is_proxy : Bool
  tls_info : Bool
  deriving DecidableEq, Repr

/-- `Connection for Conn` (`connect.rs` lines 664-678): the inner transport's
metadata with the proxy-form flag applied, plus — only when the tls-info flag
is set and the inner transport reports TLS info — that TLS info attached. -/
def Conn.connected (c : Conn) : Connected :=
  let connected := (Transport.connected c.inner).proxy c.is_proxy
  if c.tls_info then
    match Transport.tlsInfo c.inner with
    | some tlsInfo => connected.extra tlsInfo
    | none => connected
  else connected

/-- `verbose::Wrapper::wrap`: boxes the connection, adding the tracing
decorator when verbose mode is on (its id is random and carries no
information, so it is fixed to 0 here). -/
def verboseWrap (enabled : Bool) (conn : Transport) : Transport :=
  if enabled then .verbose 0 conn else conn

/-- `HttpConnector` (core client), reduced to the one configuration field the
dispatch logic reads and writes: the nodelay option applied to the sockets it
creates. -/
structure HttpConnector where
  nodelay : Bool
  deriving DecidableEq, Repr

/-- `HttpConnector::set_nodelay`. -/
def HttpConnector.set_nodelay (h : HttpConnector) (b : Bool) : HttpConnector :=
  { h with nodelay := b }

/-- The externally visible actions a connect attempt performs, in order. -/
inductive Event where
  | tcpConnect (addr : Uri) (nodelay : Bool)
  | tlsHandshake (host : Option String)
  | setNodelay (enabled : Bool)
  | socksConnect (proxy : Uri) (target : Uri) (rawAuth : Option (String × String))
  | tunnelConnect (proxy : Uri) (auth : Option String) (headers : Option HeaderMap) (target : Uri)
  deriving DecidableEq, Repr

/-- The external collaborators, as oracles deciding the outcome of each
effectful step: raw TCP connect to an address, TLS handshake (given the host
used for verification and the stream handshaken over, yielding the session
state), the SOCKS handshake (proxy, target, raw credentials, yielding the
tunnel socket) and the HTTP CONNECT tunnel negotiation (proxy, basic auth,
custom headers, target, yielding the tunneled stream to hand to TLS). -/
structure Oracle where
  tcpConnect : Uri → Except ConnError Unit
  tlsHandshake : Option String → Transport → Except ConnError Ssl
  socksTunnel : Uri → Uri → Option (String × String) → Except ConnError TcpSock
  httpTunnel : Uri → Option String → Option HeaderMap → Uri → Except ConnError Transport

/-- Modelled from the spec: `HttpsConnector::call` (crate `tls`, not under
`src/`) — the TLS wrapper: "given a plaintext transport and a destination,
optionally upgrades it to TLS (scheme-driven)". It connects the underlying
`HttpConnector` transport to the destination address (the created socket
carries the connector's nodelay option) and, for an `https` scheme, performs
the TLS handshake using the destination's host for verification, returning the
maybe-TLS stream (`MaybeHttpsStream::Https` holds the
`TokioIo<SslStream<TokioIo<_>>>` it produced). -/
def HttpsConnector.call (o : Oracle) (http : HttpConnector) (uri : Uri) :
    Except ConnError Transport × List Event :=
  match o.tcpConnect uri with
  | .error e => (.error e, [.tcpConnect uri http.nodelay])
  | .ok _ =>
    let base : Transport := .tokioIo (.tcp { addr := uri, nodelay := http.nodelay })
    if uri.scheme = some "https" then
      match o.tlsHandshake uri.host (.tokioIo base) with
      | .error e => (.error e, [.tcpConnect uri http.nodelay, .tlsHandshake uri.host])
      | .ok s =>
        (.ok (.mHttps (.tokioIo (.ssl s (.tokioIo base)))),
         [.tcpConnect uri http.nodelay, .tlsHandshake uri.host])
    else (.ok (.mHttp base), [.tcpConnect uri http.nodelay])

/-- Modelled from the spec: `HttpsConnector::connect` (crate `tls`, not under
`src/`) — performs the TLS handshake over an already-established (tunneled)
stream, "using the destination host for verification", and returns the
resulting `SslStream`. -/
def HttpsConnector.connect (o : Oracle) (host : String) (stream : Transport) :
    Except ConnError Transport × List Event :=
  match o.tlsHandshake (some host) stream with
  | .error e => (.error e, [.tlsHandshake (some host)])
  | .ok s => (.ok (.ssl s (.tokioIo stream)), [.tlsHandshake (some host)])

/-- `stream.inner().get_ref().inner().inner().set_nodelay(b)` (`connect.rs`
lines 470-475): sets the TCP_NODELAY option on the socket underlying a direct
TLS stream (the `MaybeHttpsStream::Https` payload shape). -/
def setSockNodelay (stream : Transport) (b : Bool) : Transport :=
  match stream with
  | .tokioIo (.ssl s (.tokioIo (.tokioIo (.tcp sock)))) =>
    .tokioIo (.ssl s (.tokioIo (.tokioIo (.tcp { sock with nodelay := b }))))
  | other => other

/-- `ConnectorService` (`connect.rs` lines 382-402), reduced to the fields the
dispatch logic reads: the underlying `HttpConnector` configuration, the proxy
matcher set, the verbose flag, the optionally embedded connect timeout, the
caller's nodelay request and the tls-info flag. -/
structure ConnectorService where
  http : HttpConnector
  proxies : List ProxyMatcher
  verbose : Bool
  timeout : Option Nat
  nodelay : Bool
  tls_info : Bool

/-- `ConnectorService::connect_socks` (`connect.rs` lines 406-447): SOCKS
handshake to the proxy for the target URI with the interception's raw
credentials; for an HTTPS destination the TLS handshake then runs over the
tunnel stream against the destination host (bad-host error when the URI has no
host), and the result is tagged `is_proxy = false` in both cases (the
plaintext case also forces `tls_info = false`). -/
def ConnectorService.connect_socks (o : Oracle) (svc : ConnectorService) (dst : Dst)
    (proxy : Intercepted) : Except ConnError Conn × List Event :=
  let uri := dst.uri
  if uri.scheme = some "https" then
    match o.socksTunnel proxy.uri uri proxy.rawAuth with
    | .error e => (.error e, [.socksConnect proxy.uri uri proxy.rawAuth])
    | .ok sock =>
      let conn : Transport := .tokioIo (.tcp sock)
      match uri.host with
      | none => (.error .uriBadHost, [.socksConnect proxy.uri uri proxy.rawAuth])
      | some host =>
        match HttpsConnector.connect o host conn with
        | (.error e, evs) => (.error e, .socksConnect proxy.uri uri proxy.rawAuth :: evs)
        | (.ok stream, evs) =>
          (.ok { inner := verboseWrap svc.verbose (.boring (.tokioIo stream)),
                 is_proxy := false, tls_info := svc.tls_info },
           .socksConnect proxy.uri uri proxy.rawAuth :: evs)
  else
    match o.socksTunnel proxy.uri uri proxy.rawAuth with
    | .error e => (.error e, [.socksConnect proxy.uri uri proxy.rawAuth])
    | .ok sock =>
      (.ok { inner := verboseWrap svc.verbose (.tokioIo (.tcp sock)),
             is_proxy := false, tls_info := false },
       [.socksConnect proxy.uri uri proxy.rawAuth])

/-- `ConnectorService::connect_with_maybe_proxy` (`connect.rs` lines 449-489):
the direct-connect sequence — when the caller has not requested nodelay and
the scheme is HTTPS, the cloned `HttpConnector` has nodelay enabled for the
handshake; the maybe-TLS connect runs; on a TLS stream the socket's nodelay is
set back to false when the caller had not requested it; the result carries the
given proxy-form flag. -/
def ConnectorService.connect_with_maybe_proxy (o : Oracle) (svc : ConnectorService)
    (dst : Dst) (is_proxy : Bool) : Except ConnError Conn × List Event :=
  let uri := dst.uri
  let http :=
    if !svc.nodelay && uri.scheme = some "https" then svc.http.set_nodelay true else svc.http
  match HttpsConnector.call o http uri with
  | (.error e, evs) => (.error e, evs)
  | (.ok io_, evs) =>
    match io_ with
    | .mHttps stream =>
      if !svc.nodelay then
        (.ok { inner := verboseWrap svc.verbose (.boring (setSockNodelay stream false)),
               is_proxy := is_proxy, tls_info := svc.tls_info },
         evs ++ [.setNodelay false])
      else
        (.ok { inner := verboseWrap svc.verbose (.boring stream),
               is_proxy := is_proxy, tls_info := svc.tls_info }, evs)
    | other =>
      (.ok { inner := verboseWrap svc.verbose other,
             is_proxy := is_proxy, tls_info := svc.tls_info }, evs)

/-- The SOCKS scheme test of `connect_via_proxy`
(`Some("socks4" | "socks4a" | "socks5" | "socks5h")`). -/
def isSocksScheme : Option String → Bool
  | some "socks4" => true
  | some "socks4a" => true
  | some "socks5" => true
  | some "socks5h" => true
  | _ => false

/-- `ConnectorService::connect_via_proxy` (`connect.rs` lines 491-535): SOCKS
proxies go to `connect_socks`; an HTTPS destination is CONNECT-tunneled
through the proxy (basic auth and custom headers from the interception, TLS
over the tunnel against the destination host, bad-host error before tunneling
when the URI has no host, result tagged `is_proxy = false`); a plaintext
destination has its URI overwritten with the proxy's and falls through to the
direct sequence with `is_proxy = true`. -/
def ConnectorService.connect_via_proxy (o : Oracle) (svc : ConnectorService) (dst : Dst)
    (proxy : Intercepted) : Except ConnError Conn × List Event :=
  let uri := dst.uri
  if isSocksScheme proxy.uri.scheme then svc.connect_socks o dst proxy
  else
    let proxy_dst := proxy.uri
    let auth := proxy.basicAuth
    if uri.scheme = some "https" then
      match uri.host with
      | none => (.error .uriBadHost, [])
      | some host =>
        match o.httpTunnel proxy_dst auth proxy.customHeaders uri with
        | .error e => (.error e, [.tunnelConnect proxy_dst auth proxy.customHeaders uri])
        | .ok tunneled =>
          match HttpsConnector.connect o host tunneled with
          | (.error e, evs) =>
            (.error e, .tunnelConnect proxy_dst auth proxy.customHeaders uri :: evs)
          | (.ok stream, evs) =>
            (.ok { inner := verboseWrap svc.verbose (.boring (.tokioIo stream)),
                   is_proxy := false, tls_info := svc.tls_info },
             .tunnelConnect proxy_dst auth proxy.customHeaders uri :: evs)
    else
      svc.connect_with_maybe_proxy o (dst.set_uri proxy_dst) true

/-- `with_timeout` (`connect.rs` lines 538-551): races the connect future
against the optional configured duration. `t` is the abstract completion time
of the wrapped future; tokio's timeout yields its elapsed error exactly when
the future does not complete within the duration (`¬ t < to`), which the match
arms turn into the classified `TimedOut` error, and otherwise the future's own
result is returned unchanged. -/
def with_timeout (t : Nat) (res : Except ConnError α) : Option Nat → Except ConnError α
  | some dur => if t < dur then res else .error .timedOut
  | none => res

/-- The branch selection of `Service::call for ConnectorService` (`connect.rs`
lines 563-586), without the timeout wrapper: a pre-resolved interception is
taken off the destination and used; otherwise the matchers are scanned in
order; otherwise the direct path runs with `is_proxy = false`. -/
def ConnectorService.callEv (o : Oracle) (svc : ConnectorService) (dst : Dst) :
    Except ConnError Conn × List Event :=
  match dst.take_proxy_intercepted with
  | (some proxy_scheme, dst) => svc.connect_via_proxy o dst proxy_scheme
  | (none, dst) =>
    match findIntercept svc.proxies dst.uri with
    | some intercepted => svc.connect_via_proxy o dst intercepted
    | none => svc.connect_with_maybe_proxy o dst false

/-- `Service::call for ConnectorService` (`connect.rs` lines 563-586): each of
the three branches is wrapped in `with_timeout` with the service's embedded
timeout; `t` is the abstract completion time of the connect future. -/
def ConnectorService.call (o : Oracle) (svc : ConnectorService) (t : Nat) (dst : Dst) :
    Except ConnError Conn :=
  match dst.take_proxy_intercepted with
  | (some proxy_scheme, dst) =>
    with_timeout t (svc.connect_via_proxy o dst proxy_scheme).1 svc.timeout
  | (none, dst) =>
    match findIntercept svc.proxies dst.uri with
    | some intercepted => with_timeout t (svc.connect_via_proxy o dst intercepted).1 svc.timeout
    | none => with_timeout t (svc.connect_with_maybe_proxy o dst false).1 svc.timeout

/-- The completion time and result of a tower call future. -/
structure TimedResult where
  time : Nat
  result : Except ConnError Conn
  deriving Repr

/-- `sealed::Unnameable`: the opaque request wrapper around `Dst` that the
layered pipeline passes to user middleware. -/
structure Unnameable where
  dst : Dst
  deriving DecidableEq, Repr

/-- A type-erased tower service over `Unnameable` requests
(`BoxCloneSyncService<Unnameable, Conn, BoxError>`): whether its readiness
check is immediately ready, and for each request the completion time and
result of the future its call returns. -/
structure BoxedConnectorService where
  ready : Bool
  callT : Unnameable → TimedResult

/-- `BoxedConnectorLayer`: a user-supplied tower layer, i.e. a transformer of
boxed connector services. -/
def BoxedConnectorLayer := BoxedConnectorService → BoxedConnectorService

/-- Modelled from the spec: `map_timeout_to_connector_error` (crate `error`,
not under `src/`) — the final error-mapping layer "maps any
timeout/middleware-originated error into the system's classified error type":
a tower timeout `Elapsed` error becomes the classified timeout error, any
other error passes through. -/
def map_timeout_to_connector_error : ConnError → ConnError
  | .elapsed => .timedOut
  | e => e

/-- Modelled from the spec: tower's `TimeoutLayer` — races the inner call
against the duration, yielding the tower `Elapsed` error exactly when the
inner future does not complete within it; its readiness check delegates to the
inner service. -/
def TimeoutLayer.apply (dur : Nat) (s : BoxedConnectorService) : BoxedConnectorService :=
  { ready := s.ready,
    callT := fun r =>
      let tr := s.callT r
      if tr.time < dur then tr else { time := dur, result := .error .elapsed } }

/-- Modelled from the spec: tower's `map_err` layer — maps the error of the
inner call's result, delegating readiness and timing. -/
def mapErr (f : ConnError → ConnError) (s : BoxedConnectorService) : BoxedConnectorService :=
  { ready := s.ready,
    callT := fun r =>
      let tr := s.callT r
      { time := tr.time, result := tr.result.mapError f } }

/-- The innermost boxed service of the layered shape (`connect.rs` lines
282-287): `MapRequestLayer` unwraps the `Unnameable` request back to `Dst` and
the concrete `ConnectorService` (whose embedded timeout is still `none` at
this point) is called; `ConnectorService::poll_ready` is always immediately
ready. `τ` gives the abstract completion time of each call future. -/
def baseBoxed (o : Oracle) (τ : Dst → Nat) (svc : ConnectorService) : BoxedConnectorService :=
  { ready := true,
    callT := fun r => { time := τ r.dst, result := (svc.callEv o r.dst).1 } }

/-- `Connector` (`connect.rs` lines 325-331): the two dispatcher shapes. -/
inductive Connector where
  | Simple (service : ConnectorService)
  | WithLayers (service : BoxedConnectorService)

/-- `ConnectorBuilder::build` (`connect.rs` lines 257-321): with user layers,
the boxed base service is folded through the layers in the supplied order
(each later layer wrapping the service built so far), then the configured
timeout — when present — is applied as a timeout layer outside all user
layers, and the error-mapping layer is applied outermost; without user layers
the concrete service is used with the timeout embedded inline. -/
def ConnectorBuilder.build (o : Oracle) (τ : Dst → Nat) (svc : ConnectorService)
    (timeout : Option Nat) (layers : Option (List BoxedConnectorLayer)) : Connector :=
  match layers with
  | some ls =>
    let service := ls.foldl (fun service layer => layer service)
      (baseBoxed o τ { svc with timeout := none })
    match timeout with
    | some dur =>
      .WithLayers (mapErr map_timeout_to_connector_error (TimeoutLayer.apply dur service))
    | none => .WithLayers (mapErr map_timeout_to_connector_error service)
  | none => .Simple { svc with timeout := timeout }

/-- `Service::poll_ready for Connector` (`connect.rs` lines 365-370): both
arms delegate; `ConnectorService::poll_ready` is always `Ready(Ok(()))`. -/
def Connector.poll_ready : Connector → Bool
  | .Simple _ => true
  | .WithLayers s => s.ready

/-- `Service::call for Connector` (`connect.rs` lines 373-378): the simple
shape calls the concrete service (whose call future completes at time
`τ dst`); the layered shape wraps the destination in `Unnameable` and calls
the boxed service. -/
def Connector.call (o : Oracle) (τ : Dst → Nat) : Connector → Dst → Except ConnError Conn
  | .Simple svc, dst => svc.call o (τ dst) dst
  | .WithLayers s, dst => (s.callT { dst := dst }).result

/-- The interception `ConnectorService::call` resolves for a destination: the
pre-resolved one when present, otherwise the first matcher hit. -/
def interceptionOf (svc : ConnectorService) (dst : Dst) : Option Intercepted :=
  match dst.proxy_intercepted with
  | some i => some i
  | none => findIntercept svc.proxies dst.uri

/- Helper lemmas shared by the claim theorems. -/

theorem connect_with_maybe_proxy_ok_is_proxy (o : Oracle) (svc : ConnectorService) (dst : Dst)
    (b : Bool) (c : Conn) (h : (svc.connect_with_maybe_proxy o dst b).1 = Except.ok c) :
    c.is_proxy = b := by
  simp only [ConnectorService.connect_with_maybe_proxy] at h
  split at h
  · simp at h
  · split at h
    · split at h <;> · simp at h; subst h; rfl
    · simp at h; subst h; rfl

theorem connect_socks_ok_is_proxy (o : Oracle) (svc : ConnectorService) (dst : Dst)
    (p : Intercepted) (c : Conn) (h : (svc.connect_socks o dst p).1 = Except.ok c) :
    c.is_proxy = false := by
  simp only [ConnectorService.connect_socks] at h
  split at h
  · split at h
    · simp at h
    · split at h
      · simp at h
      · split at h
        · simp at h
        · simp at h; subst h; rfl
  · split at h
    · simp at h
    · simp at h; subst h; rfl

theorem connect_via_proxy_ok_is_proxy (o : Oracle) (svc : ConnectorService) (dst : Dst)
    (p : Intercepted) (c : Conn) (h : (svc.connect_via_proxy o dst p).1 = Except.ok c) :
    c.is_proxy = (!isSocksScheme p.uri.scheme && !(dst.uri.scheme = some "https" : Bool)) := by
  simp only [ConnectorService.connect_via_proxy] at h
  split at h
  · rw [connect_socks_ok_is_proxy o svc dst p c h]; simp [*]
  · rename_i hns
    split at h
    · rename_i hsch
      split at h
      · simp at h
      · split at h
        · simp at h
        · split at h
          · simp at h
          · simp at h; subst h
            simp [hns, hsch]
    · rename_i hsch
      rw [connect_with_maybe_proxy_ok_is_proxy o svc _ true c h]
      simp [hns, hsch]

theorem findIntercept_append_first (ps : List ProxyMatcher) (p : ProxyMatcher)
    (qs : List ProxyMatcher) (uri : Uri) (i : Intercepted)
    (hnone : ∀ q ∈ ps, q.intercept uri = none) (hp : p.intercept uri = some i) :
    findIntercept (ps ++ p :: qs) uri = some i := by
  induction ps with
  | nil => simp [findIntercept, hp]
  | cons q ps ih =>
    have hq : q.intercept uri = none := hnone q (by simp)
    simp only [List.cons_append, findIntercept, hq]
    exact ih fun r hr => hnone r (by simp [hr])

theorem findIntercept_all_none (ps : List ProxyMatcher) (uri : Uri)
    (hnone : ∀ q ∈ ps, q.intercept uri = none) : findIntercept ps uri = none := by
  induction ps with
  | nil => rfl
  | cons q ps ih =>
    have hq : q.intercept uri = none := hnone q (by simp)
    simp only [findIntercept, hq]
    exact ih fun r hr => hnone r (by simp [hr])

/- Concrete fixtures used by the witness theorems. -/

def testUriHttp : Uri := { scheme := some "http", host := some "example.test", port := none }

def testUriHttps : Uri := { scheme := some "https", host := some "example.test", port := none }

def testProxyUri : Uri := { scheme := some "http", host := some "proxy.test", port := some 8080 }

def testSocksUri : Uri := { scheme := some "socks5", host := some "proxy.test", port := some 1080 }

def testSsl : Ssl := { peerCert := some (some [48, 130, 1, 10]), selectedAlpn := some "h2" }

def testOracle : Oracle :=
  { tcpConnect := fun _ => .ok ()
    tlsHandshake := fun _ _ => .ok testSsl
    socksTunnel := fun _ _ _ => .ok { addr := testSocksUri, nodelay := false }
    httpTunnel := fun p _ _ _ => .ok (.mHttp (.tokioIo (.tcp { addr := p, nodelay := false }))) }

def testSvc : ConnectorService :=
  { http := { nodelay := false }, proxies := [], verbose := false,
    timeout := none, nodelay := false, tls_info := false }

def testIntercept : Intercepted :=
  { uri := testProxyUri, basicAuth := none, customHeaders := none, rawAuth := none }

def testSocksIntercept : Intercepted :=
  { uri := testSocksUri, basicAuth := none, customHeaders := none, rawAuth := none }

def testMatcher : ProxyMatcher := { intercept := fun _ => some testIntercept }

def noneMatcher : ProxyMatcher := { intercept := fun _ => none }

theorem call_eq_with_timeout (o : Oracle) (svc : ConnectorService) (t : Nat) (dst : Dst) :
    svc.call o t dst = with_timeout t (svc.callEv o dst).1 svc.timeout := by
  obtain ⟨uri, pi⟩ := dst
  cases pi with
  | some i => rfl
  | none =>
    simp only [ConnectorService.call, ConnectorService.callEv, Dst.take_proxy_intercepted]
    cases h : findIntercept svc.proxies uri with
    | some i => simp [h]
    | none => simp [h]

theorem HttpsConnector.call_first_event (o : Oracle) (http : HttpConnector) (uri : Uri) :
    (HttpsConnector.call o http uri).2.head? = some (.tcpConnect uri http.nodelay) := by
  simp only [HttpsConnector.call]
  split
  · rfl
  · split
    · cases o.tlsHandshake uri.host _ <;> rfl
    · rfl

theorem connect_with_maybe_proxy_first_event (o : Oracle) (svc : ConnectorService) (dst : Dst)
    (b : Bool) :
    (svc.connect_with_maybe_proxy o dst b).2.head?
      = some (.tcpConnect dst.uri
          ((if !svc.nodelay && dst.uri.scheme = some "https" then svc.http.set_nodelay true
            else svc.http).nodelay)) := by
  simp only [ConnectorService.connect_with_maybe_proxy]
  have h := HttpsConnector.call_first_event o
    (if !svc.nodelay && dst.uri.scheme = some "https" then svc.http.set_nodelay true
     else svc.http) dst.uri
  split
  · rename_i e evs heq
    rw [heq] at h
    simpa using h
  · rename_i res evs heq
    rw [heq] at h
    simp at h
    split
    · split
      · cases evs with
        | nil => simp at h
        | cons a as => simpa using h
      · simpa using h
    · simpa using h

/-- C1: resolution order of the dispatcher's call: a pre-resolved interception
carried by the destination is used directly and the matcher set is never
consulted (any matcher list yields the same dispatch); otherwise the matchers
are scanned in configured order and the first one whose intercept yields a
result determines the proxy; when no matcher yields a result the
direct-connect path is taken with the proxy-form flag false, so any resulting
connection has `is_proxy = false`. -/
theorem call_resolution_order (o : Oracle) (svc : ConnectorService) (dst : Dst) :
    (∀ i, dst.proxy_intercepted = some i →
      ∀ ps, ConnectorService.callEv o { svc with proxies := ps } dst
        = ConnectorService.connect_via_proxy o { svc with proxies := ps }
            { dst with proxy_intercepted := none } i)
    ∧ (dst.proxy_intercepted = none →
      (∀ ps p qs i, svc.proxies = ps ++ p :: qs →
        (∀ q ∈ ps, q.intercept dst.uri = none) → p.intercept dst.uri = some i →
        svc.callEv o dst = svc.connect_via_proxy o dst i)
      ∧ ((∀ q ∈ svc.proxies, q.intercept dst.uri = none) →
        svc.callEv o dst = svc.connect_with_maybe_proxy o dst false
        ∧ ∀ conn, (svc.callEv o dst).1 = Except.ok conn → conn.is_proxy = false)) := by
  obtain ⟨uri, pi⟩ := dst
  constructor
  · rintro i hi ps
    cases pi with
    | none => simp at hi
    | some j =>
      simp only at hi
      cases hi
      rfl
  · intro hnone
    simp only at hnone
    subst hnone
    constructor
    · rintro ps p qs i hsplit hps hp
      have hf : findIntercept svc.proxies uri = some i := by
        rw [hsplit]; exact findIntercept_append_first ps p qs uri i hps hp
      simp only [ConnectorService.callEv, Dst.take_proxy_intercepted]
      simp [hf]
    · intro hall
      have hf : findIntercept svc.proxies uri = none := findIntercept_all_none _ _ hall
      have hcall : ConnectorService.callEv o svc ⟨uri, none⟩
          = svc.connect_with_maybe_proxy o ⟨uri, none⟩ false := by
        simp only [ConnectorService.callEv, Dst.take_proxy_intercepted]
        simp [hf]
      refine ⟨hcall, fun conn hc => ?_⟩
      rw [hcall] at hc
      exact connect_with_maybe_proxy_ok_is_proxy o svc _ false conn hc

/-- C1 witness: a destination carrying a pre-resolved interception dispatches
straight to `connect_via_proxy` with it, for an arbitrary matcher list. -/
theorem call_resolution_order_witness :
    ({ uri := testUriHttp, proxy_intercepted := some testIntercept } : Dst).proxy_intercepted
      = some testIntercept
    ∧ ConnectorService.callEv testOracle { testSvc with proxies := [noneMatcher] }
        { uri := testUriHttp, proxy_intercepted := some testIntercept }
      = ConnectorService.connect_via_proxy testOracle { testSvc with proxies := [noneMatcher] }
          { uri := testUriHttp, proxy_intercepted := none } testIntercept :=
  ⟨rfl, (call_resolution_order testOracle testSvc
    { uri := testUriHttp, proxy_intercepted := some testIntercept }).1 testIntercept rfl
    [noneMatcher]⟩

/-- C2: on every branch, a produced connection's `is_proxy` flag is true
exactly when a non-SOCKS proxy intercepted a plaintext (non-HTTPS) destination
— i.e. a plaintext proxy used without tunneling — and in particular never for
a SOCKS- or CONNECT-tunneled connection. -/
theorem is_proxy_only_for_plaintext_proxy (o : Oracle) (svc : ConnectorService) (dst : Dst)
    (conn : Conn) (h : (svc.callEv o dst).1 = Except.ok conn) :
    conn.is_proxy = true ↔
      ∃ p, interceptionOf svc dst = some p ∧ isSocksScheme p.uri.scheme = false ∧
        dst.uri.scheme ≠ some "https" := by
  obtain ⟨uri, pi⟩ := dst
  cases pi with
  | some i =>
    simp only [ConnectorService.callEv, Dst.take_proxy_intercepted] at h
    rw [connect_via_proxy_ok_is_proxy o svc _ i conn h]
    simp [interceptionOf]
  | none =>
    simp only [ConnectorService.callEv, Dst.take_proxy_intercepted] at h
    cases hf : findIntercept svc.proxies uri with
    | some i =>
      rw [hf] at h
      rw [connect_via_proxy_ok_is_proxy o svc _ i conn h]
      simp [interceptionOf, hf]
    | none =>
      rw [hf] at h
      rw [connect_with_maybe_proxy_ok_is_proxy o svc _ false conn h]
      simp [interceptionOf, hf]

/-- The connection the fixture dispatch produces for a plaintext destination
through the plaintext test proxy. -/
def testConnHttpProxy : Conn :=
  { inner := .mHttp (.tokioIo (.tcp { addr := testProxyUri, nodelay := false })),
    is_proxy := true, tls_info := false }

/-- C2 witness: a plaintext destination matched by a plaintext HTTP proxy rule
yields a connection whose `is_proxy` flag is true, equivalently to the
interception being a non-SOCKS proxy on a non-HTTPS destination. -/
theorem is_proxy_only_for_plaintext_proxy_witness :
    ((ConnectorService.callEv testOracle { testSvc with proxies := [testMatcher] }
        { uri := testUriHttp, proxy_intercepted := none }).1 = Except.ok testConnHttpProxy)
    ∧ (testConnHttpProxy.is_proxy = true ↔
      ∃ p, interceptionOf { testSvc with proxies := [testMatcher] }
          { uri := testUriHttp, proxy_intercepted := none } = some p ∧
        isSocksScheme p.uri.scheme = false ∧
        ({ uri := testUriHttp, proxy_intercepted := none } : Dst).uri.scheme ≠ some "https") :=
  ⟨rfl, is_proxy_only_for_plaintext_proxy testOracle { testSvc with proxies := [testMatcher] }
    { uri := testUriHttp, proxy_intercepted := none } testConnHttpProxy rfl⟩

/-- C3: an HTTPS destination intercepted by a non-SOCKS proxy: when the
destination URI has no host the attempt fails with the bad-host error before
any tunneling (the event trace is empty); when it has a host, an HTTP CONNECT
tunnel to the proxy is established carrying the interception's basic auth and
custom headers, then the TLS handshake runs over the tunneled stream against
the destination's host, and any resulting connection has `is_proxy = false`. -/
theorem connect_via_proxy_https_tunnel (o : Oracle) (svc : ConnectorService) (dst : Dst)
    (proxy : Intercepted) (hns : isSocksScheme proxy.uri.scheme = false)
    (hsch : dst.uri.scheme = some "https") :
    (dst.uri.host = none → svc.connect_via_proxy o dst proxy = (.error .uriBadHost, []))
    ∧ (∀ host, dst.uri.host = some host →
      (svc.connect_via_proxy o dst proxy).2.head?
        = some (.tunnelConnect proxy.uri proxy.basicAuth proxy.customHeaders dst.uri)
      ∧ (∀ tunneled,
        o.httpTunnel proxy.uri proxy.basicAuth proxy.customHeaders dst.uri
          = Except.ok tunneled →
        (svc.connect_via_proxy o dst proxy).2
          = [.tunnelConnect proxy.uri proxy.basicAuth proxy.customHeaders dst.uri,
             .tlsHandshake (some host)]))
    ∧ (∀ conn, (svc.connect_via_proxy o dst proxy).1 = Except.ok conn →
        conn.is_proxy = false) := by
  refine ⟨?_, ?_, ?_⟩
  · intro hh
    simp [ConnectorService.connect_via_proxy, hns, hsch, hh]
  · intro host hh
    constructor
    · simp only [ConnectorService.connect_via_proxy]
      simp only [hns, hsch, hh]
      simp only [Bool.false_eq_true, if_false, if_pos rfl]
      cases htun : o.httpTunnel proxy.uri proxy.basicAuth proxy.customHeaders dst.uri with
      | error e => simp [htun]
      | ok tun =>
        simp [htun, HttpsConnector.connect]
        cases o.tlsHandshake (some host) tun <;> simp
    · intro tunneled htun
      simp [ConnectorService.connect_via_proxy, hns, hsch, hh, htun, HttpsConnector.connect]
      cases o.tlsHandshake (some host) tunneled <;> simp
  · intro conn hc
    rw [connect_via_proxy_ok_is_proxy o svc dst proxy conn hc]
    simp [hns, hsch]

/-- C3 witness: for the fixture HTTPS destination through the plaintext test
proxy, the trace is exactly a CONNECT tunnel to the proxy followed by a TLS
handshake against the destination's host. -/
theorem connect_via_proxy_https_tunnel_witness :
    (ConnectorService.connect_via_proxy testOracle testSvc
        { uri := testUriHttps, proxy_intercepted := none } testIntercept).2
      = [.tunnelConnect testProxyUri none none testUriHttps,
         .tlsHandshake (some "example.test")] :=
  ((connect_via_proxy_https_tunnel testOracle testSvc
      { uri := testUriHttps, proxy_intercepted := none } testIntercept rfl rfl).2.1
    "example.test" rfl).2
    (Transport.mHttp (.tokioIo (.tcp { addr := testProxyUri, nodelay := false }))) rfl

/-- C4: a plaintext destination intercepted by a non-SOCKS proxy: the
destination URI is overwritten with the proxy's URI and the direct-connect
sequence runs with the proxy-form flag true — the transport's first TCP
connect targets the proxy's address, and any resulting connection has
`is_proxy = true`. -/
theorem connect_via_proxy_plaintext_rewrite (o : Oracle) (svc : ConnectorService) (dst : Dst)
    (proxy : Intercepted) (hns : isSocksScheme proxy.uri.scheme = false)
    (hsch : dst.uri.scheme ≠ some "https") :
    svc.connect_via_proxy o dst proxy
      = svc.connect_with_maybe_proxy o (dst.set_uri proxy.uri) true
    ∧ (∃ nd, (svc.connect_via_proxy o dst proxy).2.head? = some (.tcpConnect proxy.uri nd))
    ∧ (∀ conn, (svc.connect_via_proxy o dst proxy).1 = Except.ok conn →
        conn.is_proxy = true) := by
  have heq : svc.connect_via_proxy o dst proxy
      = svc.connect_with_maybe_proxy o (dst.set_uri proxy.uri) true := by
    simp [ConnectorService.connect_via_proxy, hns, hsch]
  refine ⟨heq, ?_, ?_⟩
  · rw [heq]
    exact ⟨_, connect_with_maybe_proxy_first_event o svc (dst.set_uri proxy.uri) true⟩
  · intro conn hc
    rw [connect_via_proxy_ok_is_proxy o svc dst proxy conn hc]
    simp [hns, hsch]

/-- C4 witness: the fixture plaintext destination through the plaintext test
proxy dispatches to the direct sequence on the rewritten (proxy) URI with the
proxy-form flag true. -/
theorem connect_via_proxy_plaintext_rewrite_witness :
    ConnectorService.connect_via_proxy testOracle testSvc
        { uri := testUriHttp, proxy_intercepted := none } testIntercept
      = ConnectorService.connect_with_maybe_proxy testOracle testSvc
          (Dst.set_uri { uri := testUriHttp, proxy_intercepted := none } testProxyUri) true :=
  (connect_via_proxy_plaintext_rewrite testOracle testSvc
    { uri := testUriHttp, proxy_intercepted := none } testIntercept rfl (by decide)).1

/-- C5: a SOCKS-scheme proxy interception dispatches to the SOCKS branch: a
SOCKS tunnel to the proxy is opened for the target with the interception's raw
credentials (always the first event); for an HTTPS destination the TLS
handshake then runs over the tunnel stream against the destination's host
(bad-host error when the URI has no host); and any resulting connection has
`is_proxy = false` in both the encrypted and plaintext cases. -/
theorem connect_via_proxy_socks_branch (o : Oracle) (svc : ConnectorService) (dst : Dst)
    (proxy : Intercepted) (hs : isSocksScheme proxy.uri.scheme = true) :
    svc.connect_via_proxy o dst proxy = svc.connect_socks o dst proxy
    ∧ (svc.connect_socks o dst proxy).2.head?
        = some (.socksConnect proxy.uri dst.uri proxy.rawAuth)
    ∧ (dst.uri.scheme = some "https" →
      ∀ sock, o.socksTunnel proxy.uri dst.uri proxy.rawAuth = Except.ok sock →
        (dst.uri.host = none → (svc.connect_socks o dst proxy).1 = .error .uriBadHost)
        ∧ (∀ host, dst.uri.host = some host →
          (svc.connect_socks o dst proxy).2
            = [.socksConnect proxy.uri dst.uri proxy.rawAuth, .tlsHandshake (some host)]))
    ∧ (∀ conn, (svc.connect_socks o dst proxy).1 = Except.ok conn →
        conn.is_proxy = false) := by
  refine ⟨by simp [ConnectorService.connect_via_proxy, hs], ?_, ?_, ?_⟩
  · simp only [ConnectorService.connect_socks, HttpsConnector.connect]
    split
    · split
      · rfl
      · split
        · rfl
        · split <;> rfl
    · split <;> rfl
  · intro hsch sock hsock
    constructor
    · intro hh
      simp [ConnectorService.connect_socks, hsch, hsock, hh]
    · intro host hh
      simp [ConnectorService.connect_socks, hsch, hsock, hh, HttpsConnector.connect]
      cases o.tlsHandshake (some host) (.tokioIo (.tcp sock)) <;> simp
  · intro conn hc
    exact connect_socks_ok_is_proxy o svc dst proxy conn hc

/-- C5 witness: the fixture HTTPS destination through the SOCKS5 test proxy
produces exactly a SOCKS handshake to the proxy followed by a TLS handshake
against the destination's host. -/
theorem connect_via_proxy_socks_branch_witness :
    (ConnectorService.connect_socks testOracle testSvc
        { uri := testUriHttps, proxy_intercepted := none } testSocksIntercept).2
      = [.socksConnect testSocksUri testUriHttps none,
         .tlsHandshake (some "example.test")] :=
  ((connect_via_proxy_socks_branch testOracle testSvc
      { uri := testUriHttps, proxy_intercepted := none } testSocksIntercept rfl).2.2.1
    rfl { addr := testSocksUri, nodelay := false } rfl).2 "example.test" rfl

/-- C6: every dispatch branch is raced against the service's configured
timeout: the call is exactly `with_timeout` of the un-timed branch selection;
with no configured timeout the connect future's result is returned unchanged,
and when a configured duration elapses before the connect future completes the
call returns the distinct classified timeout error and never a connection
handle. -/
theorem call_timeout_race (o : Oracle) (svc : ConnectorService) (t : Nat) (dst : Dst) :
    svc.call o t dst = with_timeout t (svc.callEv o dst).1 svc.timeout
    ∧ (svc.timeout = none → svc.call o t dst = (svc.callEv o dst).1)
    ∧ (∀ dur, svc.timeout = some dur → dur ≤ t →
      svc.call o t dst = .error .timedOut ∧ ∀ conn, svc.call o t dst ≠ Except.ok conn) := by
  refine ⟨call_eq_with_timeout o svc t dst, ?_, ?_⟩
  · intro hn
    rw [call_eq_with_timeout o svc t dst, hn]
    rfl
  · intro dur hd hle
    have ht : svc.call o t dst = .error .timedOut := by
      rw [call_eq_with_timeout o svc t dst, hd]
      simp [with_timeout, Nat.not_lt.mpr hle]
    exact ⟨ht, fun conn hc => by rw [ht] at hc; cases hc⟩

/-- C6 witness: a connect future completing at time 7 under a configured
timeout of 5 yields the classified timeout error. -/
theorem call_timeout_race_witness :
    ConnectorService.call testOracle { testSvc with timeout := some 5 } 7
        { uri := testUriHttp, proxy_intercepted := none }
      = .error .timedOut :=
  ((call_timeout_race testOracle { testSvc with timeout := some 5 } 7
    { uri := testUriHttp, proxy_intercepted := none }).2.2 5 rfl (by decide)).1

/-- The result of mapping errors through the normalization layer is the
identity away from the tower elapsed error. -/
theorem mapError_normalize_id (r : Except ConnError Conn) (h : r ≠ .error .elapsed) :
    r.mapError map_timeout_to_connector_error = r := by
  cases r with
  | ok c => rfl
  | error e => cases e <;> first | rfl | exact absurd rfl h

/-- The dispatch selection and connect branches never read the service's
embedded timeout, so `callEv` is invariant under changing it. -/
theorem callEv_timeout_irrel (o : Oracle) (svc : ConnectorService) (x : Option Nat)
    (dst : Dst) :
    ConnectorService.callEv o { svc with timeout := x } dst = svc.callEv o dst := by
  simp only [ConnectorService.callEv, ConnectorService.connect_via_proxy,
    ConnectorService.connect_socks, ConnectorService.connect_with_maybe_proxy]

/-- A fold of readiness-preserving layers preserves readiness. -/
theorem foldl_layers_ready (ls : List BoxedConnectorLayer) (init : BoxedConnectorService)
    (h : ∀ l ∈ ls, ∀ s, (l s).ready = s.ready) :
    (ls.foldl (fun service layer => layer service) init).ready = init.ready := by
  induction ls generalizing init with
  | nil => rfl
  | cons l ls ih =>
    rw [List.foldl_cons, ih (l init) (fun m hm s => h m (by simp [hm]) s), h l (by simp)]

/-- A user layer whose readiness check is never immediately ready (its call
delegates unchanged); a legitimate tower layer, since a tower service's
readiness poll may return pending. -/
def dropReadyLayer : BoxedConnectorLayer :=
  fun s => { ready := false, callT := s.callT }

/-- C7 counterexample: with a user-supplied layer that is never ready, the
layered connector produced by `build` has a readiness check that is not
immediately ready — refuting the claim that in both shapes the readiness check
is always immediately ready. -/
theorem build_ready_counterexample :
    Connector.poll_ready
      (ConnectorBuilder.build testOracle (fun _ => 0) testSvc none (some [dropReadyLayer]))
      = false := rfl

/-- C7 (amended): at builder finalization exactly one of two dispatcher shapes
is chosen. With no user layers the concrete service is kept with the
configured timeout embedded inline and its readiness check is always
immediately ready. With user layers, the boxed base service is wrapped by each
layer in the supplied order, a configured connect-timeout is applied as a
timeout layer outside all user layers, and the outermost error-mapping layer
normalizes the tower timeout error — so a configured timeout produces the same
classified timeout error in both shapes, with an empty user-layer list the two
shapes' calls agree on every destination whose branch result is not itself the
tower elapsed error, and the layered shape's readiness check is immediately
ready whenever the user layers preserve readiness. -/
theorem build_two_shapes (o : Oracle) (τ : Dst → Nat) (svc : ConnectorService)
    (tmo : Option Nat) (dur : Nat) (ls : List BoxedConnectorLayer) :
    ConnectorBuilder.build o τ svc tmo none = .Simple { svc with timeout := tmo }
    ∧ ConnectorBuilder.build o τ svc (some dur) (some ls)
        = .WithLayers (mapErr map_timeout_to_connector_error (TimeoutLayer.apply dur
            (ls.foldl (fun service layer => layer service)
              (baseBoxed o τ { svc with timeout := none }))))
    ∧ (∀ dst,
        dur ≤ ((ls.foldl (fun service layer => layer service)
            (baseBoxed o τ { svc with timeout := none })).callT { dst := dst }).time →
        Connector.call o τ (ConnectorBuilder.build o τ svc (some dur) (some ls)) dst
          = .error .timedOut)
    ∧ (∀ dst, dur ≤ τ dst →
        Connector.call o τ (ConnectorBuilder.build o τ svc (some dur) none) dst
          = .error .timedOut)
    ∧ (∀ dst, (svc.callEv o dst).1 ≠ .error .elapsed →
        Connector.call o τ (ConnectorBuilder.build o τ svc tmo (some [])) dst
          = Connector.call o τ (ConnectorBuilder.build o τ svc tmo none) dst)
    ∧ Connector.poll_ready (ConnectorBuilder.build o τ svc tmo none) = true
    ∧ ((∀ l ∈ ls, ∀ s : BoxedConnectorService, (l s).ready = s.ready) →
        Connector.poll_ready (ConnectorBuilder.build o τ svc tmo (some ls)) = true) := by
  refine ⟨rfl, rfl, ?_, ?_, ?_, rfl, ?_⟩
  · intro dst hle
    simp only [ConnectorBuilder.build, Connector.call, mapErr, TimeoutLayer.apply]
    simp [Nat.not_lt.mpr hle, map_timeout_to_connector_error, Except.mapError]
  · intro dst hle
    simp only [ConnectorBuilder.build, Connector.call]
    rw [call_eq_with_timeout]
    simp [with_timeout, Nat.not_lt.mpr hle]
  · intro dst hne
    simp only [ConnectorBuilder.build, Connector.call, mapErr, TimeoutLayer.apply,
      baseBoxed, List.foldl_nil]
    cases tmo with
    | none =>
      rw [call_eq_with_timeout]
      simp only [callEv_timeout_irrel]
      simp [with_timeout, mapError_normalize_id _ hne]
    | some dur2 =>
      rw [call_eq_with_timeout]
      simp only [callEv_timeout_irrel]
      by_cases hlt : τ dst < dur2
      · simp [with_timeout, hlt, apply_ite, mapError_normalize_id _ hne]
      · simp [with_timeout, hlt, apply_ite, map_timeout_to_connector_error, Except.mapError]
  · intro hready
    cases tmo with
    | none =>
      simp only [ConnectorBuilder.build, Connector.poll_ready, mapErr]
      rw [foldl_layers_ready ls _ hready]
      rfl
    | some dur2 =>
      simp only [ConnectorBuilder.build, Connector.poll_ready, mapErr, TimeoutLayer.apply]
      rw [foldl_layers_ready ls _ hready]
      rfl

/-- C7 witness (for the amended claim): building with an empty user-layer list
and a 5-tick timeout over a connect future that completes at 7 yields the
classified timeout error through the layered shape. -/
theorem build_two_shapes_witness :
    Connector.call testOracle (fun _ => 7)
        (ConnectorBuilder.build testOracle (fun _ => 7) testSvc (some 5) (some []))
        { uri := testUriHttp, proxy_intercepted := none }
      = .error .timedOut :=
  (build_two_shapes testOracle (fun _ => 7) testSvc none 5 []).2.2.1
    { uri := testUriHttp, proxy_intercepted := none } (by decide)

/-- Every transport's own connected descriptor carries no extra TLS info (only
`Conn::connected` can attach it, behind the tls-info flag). -/
theorem transport_connected_extra_none (t : Transport) :
    (Transport.connected t).extraTlsInfo = none := by
  induction t with
  | tcp sock => rfl
  | tokioIo inner ih => simpa [Transport.connected] using ih
  | ssl s inner ih => simpa [Transport.connected] using ih
  | mHttp inner ih => simpa [Transport.connected] using ih
  | mHttps inner ih => simpa [Transport.connected] using ih
  | verbose id inner ih => simpa [Transport.connected] using ih
  | boring inner ih =>
    cases inner with
    | tokioIo inner2 =>
      cases inner2 with
      | ssl s base =>
        have hb : (Transport.connected base).extraTlsInfo = none := by
          simpa [Transport.connected] using ih
        by_cases h : s.selectedAlpn = some "h2" <;>
          simp [Transport.connected, h, Connected.negotiated_h2, hb]
      | tcp sock => simpa [Transport.connected] using ih
      | tokioIo i => simpa [Transport.connected] using ih
      | mHttp i => simpa [Transport.connected] using ih
      | mHttps i => simpa [Transport.connected] using ih
      | boring i => simpa [Transport.connected] using ih
      | verbose id i => simpa [Transport.connected] using ih
    | tcp sock => simpa [Transport.connected] using ih
    | ssl s i => simpa [Transport.connected] using ih
    | mHttp i => simpa [Transport.connected] using ih
    | mHttps i => simpa [Transport.connected] using ih
    | boring i => simpa [Transport.connected] using ih
    | verbose id i => simpa [Transport.connected] using ih

/-- The negotiated-h2 flag of the uniform handle's connected descriptor is the
inner transport's, untouched by the proxy-form flag and the tls-info
attachment. -/
theorem conn_connected_negotiatedH2 (t : Transport) (b ti : Bool) :
    (Conn.connected { inner := t, is_proxy := b, tls_info := ti }).negotiatedH2
      = (Transport.connected t).negotiatedH2 := by
  simp only [Conn.connected]
  cases ti with
  | false => simp [Connected.proxy]
  | true => cases h : Transport.tlsInfo t <;> simp [h, Connected.proxy, Connected.extra]

/-- C8: TLS-info capability delegation: with the tls-info flag false the
connected descriptor carries no TLS info regardless of transport; the query
delegates through every wrapping layer (tracing, `TokioIo`, `BoringTlsConn`);
with the flag true a plain TCP transport yields none, and an established TLS
transport whose session has a peer certificate yields exactly those
DER-encoded bytes. -/
theorem tls_info_capability :
    (∀ (t : Transport) (b : Bool),
      (Conn.connected { inner := t, is_proxy := b, tls_info := false }).extraTlsInfo = none)
    ∧ (∀ (t : Transport) (id : Nat),
      Transport.tlsInfo (.verbose id t) = t.tlsInfo
      ∧ Transport.tlsInfo (.tokioIo t) = t.tlsInfo
      ∧ Transport.tlsInfo (.boring t) = t.tlsInfo)
    ∧ (∀ (sock : TcpSock) (b v : Bool),
      (Conn.connected { inner := verboseWrap v (.mHttp (.tokioIo (.tcp sock))),
                        is_proxy := b, tls_info := true }).extraTlsInfo = none)
    ∧ (∀ (sock : TcpSock) (s : Ssl) (b v : Bool) (der : List Nat),
      s.peerCert = some (some der) →
      (Conn.connected { inner := verboseWrap v
                          (.boring (.tokioIo (.ssl s (.tokioIo (.tokioIo (.tcp sock)))))),
                        is_proxy := b, tls_info := true }).extraTlsInfo
        = some { peerCertificate := some der }) := by
  refine ⟨?_, ?_, ?_, ?_⟩
  · intro t b
    simp [Conn.connected, Connected.proxy, transport_connected_extra_none t]
  · intro t id
    exact ⟨rfl, rfl, rfl⟩
  · intro sock b v
    cases v <;>
      simp [verboseWrap, Conn.connected, Transport.tlsInfo, Transport.connected,
        Connected.proxy, Connected.new]
  · intro sock s b v der hcert
    cases v <;>
      simp [verboseWrap, Conn.connected, Transport.tlsInfo, sslPeerTlsInfo, hcert,
        Connected.proxy, Connected.extra]

/-- C8 witness: with the tls-info flag set, the direct TLS fixture stack
surfaces the fixture session's DER-encoded peer certificate. -/
theorem tls_info_capability_witness :
    testSsl.peerCert = some (some [48, 130, 1, 10])
    ∧ (Conn.connected { inner := verboseWrap false
                          (.boring (.tokioIo (.ssl testSsl (.tokioIo (.tokioIo
                            (.tcp { addr := testUriHttps, nodelay := false })))))),
                        is_proxy := false, tls_info := true }).extraTlsInfo
      = some { peerCertificate := some [48, 130, 1, 10] } :=
  ⟨rfl, tls_info_capability.2.2.2 { addr := testUriHttps, nodelay := false } testSsl
    false false [48, 130, 1, 10] rfl⟩

/-- The TCP_NODELAY option of the innermost socket of a transport stack. -/
def sockNodelayOf : Transport → Option Bool
  | .tcp sock => some sock.nodelay
  | .tokioIo t => sockNodelayOf t
  | .ssl _ t => sockNodelayOf t
  | .mHttp t => sockNodelayOf t
  | .mHttps t => sockNodelayOf t
  | .boring t => sockNodelayOf t
  | .verbose _ t => sockNodelayOf t

theorem HttpsConnector.call_ok_shape (o : Oracle) (http : HttpConnector) (uri : Uri)
    (res : Transport) (evs : List Event)
    (h : HttpsConnector.call o http uri = (Except.ok res, evs)) :
    (uri.scheme = some "https" ∧ ∃ s, res = .mHttps (.tokioIo (.ssl s (.tokioIo (.tokioIo
      (.tcp { addr := uri, nodelay := http.nodelay }))))))
    ∨ (¬ uri.scheme = some "https" ∧ res = .mHttp (.tokioIo
      (.tcp { addr := uri, nodelay := http.nodelay }))) := by
  simp only [HttpsConnector.call] at h
  split at h
  · simp at h
  · split at h
    · rename_i hsch
      split at h
      · simp at h
      · rename_i s heq2
        simp only [Prod.mk.injEq, Except.ok.injEq] at h
        exact Or.inl ⟨hsch, s, h.1.symm⟩
    · rename_i hsch
      simp only [Prod.mk.injEq, Except.ok.injEq] at h
      exact Or.inr ⟨hsch, h.1.symm⟩

theorem HttpsConnector.call_no_setNodelay (o : Oracle) (http : HttpConnector) (uri : Uri)
    (x : Bool) : Event.setNodelay x ∉ (HttpsConnector.call o http uri).2 := by
  simp only [HttpsConnector.call]
  split
  · simp
  · split
    · split <;> simp
    · simp

/-- C9: the Nagle toggle around the direct TLS handshake: with an HTTPS
destination, when the caller has not requested nodelay the socket is created
with nodelay enabled for the handshake and the option is set back to disabled
once the TLS stream is established; when the caller requested nodelay the
option stays at the caller's setting throughout and no toggling happens. (The
builder keeps the `HttpConnector`'s nodelay equal to the service's, hence the
hypothesis.) -/
theorem nodelay_toggle (o : Oracle) (svc : ConnectorService) (dst : Dst) (b : Bool)
    (hsch : dst.uri.scheme = some "https") (hhn : svc.http.nodelay = svc.nodelay) :
    (svc.nodelay = false →
      (svc.connect_with_maybe_proxy o dst b).2.head? = some (.tcpConnect dst.uri true)
      ∧ ∀ conn, (svc.connect_with_maybe_proxy o dst b).1 = Except.ok conn →
        sockNodelayOf conn.inner = some false)
    ∧ (svc.nodelay = true →
      (svc.connect_with_maybe_proxy o dst b).2.head? = some (.tcpConnect dst.uri true)
      ∧ Event.setNodelay false ∉ (svc.connect_with_maybe_proxy o dst b).2
      ∧ ∀ conn, (svc.connect_with_maybe_proxy o dst b).1 = Except.ok conn →
        sockNodelayOf conn.inner = some true) := by
  have hfe := connect_with_maybe_proxy_first_event o svc dst b
  constructor
  · intro hnd
    constructor
    · rw [hfe]
      simp [hnd, hsch, HttpConnector.set_nodelay]
    · intro conn hc
      simp only [ConnectorService.connect_with_maybe_proxy] at hc
      split at hc
      · simp at hc
      · rename_i res evs heq
        rcases HttpsConnector.call_ok_shape _ _ _ _ _ heq with ⟨_, s, hres⟩ | ⟨hns, _⟩
        · subst hres
          simp only [hnd, Bool.not_false, if_true] at hc
          simp only [Except.ok.injEq] at hc
          subst hc
          cases hv : svc.verbose <;>
            simp [verboseWrap, setSockNodelay, sockNodelayOf, hv]
        · exact absurd hsch hns
  · intro hnd
    refine ⟨?_, ?_, ?_⟩
    · rw [hfe]
      simp [hnd, hsch, hhn]
    · simp only [ConnectorService.connect_with_maybe_proxy]
      split
      · rename_i e evs heq
        have := HttpsConnector.call_no_setNodelay o
          (if !svc.nodelay && dst.uri.scheme = some "https" then svc.http.set_nodelay true
           else svc.http) dst.uri false
        rw [heq] at this
        simpa using this
      · rename_i res evs heq
        have := HttpsConnector.call_no_setNodelay o
          (if !svc.nodelay && dst.uri.scheme = some "https" then svc.http.set_nodelay true
           else svc.http) dst.uri false
        rw [heq] at this
        simp only at this
        split
        · split
          · rename_i hcontra
            rw [hnd] at hcontra
            simp at hcontra
          · simpa using this
        · simpa using this
    · intro conn hc
      simp only [ConnectorService.connect_with_maybe_proxy] at hc
      split at hc
      · simp at hc
      · rename_i res evs heq
        rcases HttpsConnector.call_ok_shape _ _ _ _ _ heq with ⟨_, s, hres⟩ | ⟨hns, _⟩
        · subst hres
          simp [hnd] at hc
          subst hc
          cases hv : svc.verbose <;>
            simp [verboseWrap, sockNodelayOf, hv, hhn, hnd]
        · exact absurd hsch hns

/-- C9 witness: the fixture service (caller did not request nodelay) on an
HTTPS destination creates the socket with nodelay on for the handshake and the
established connection's socket has nodelay back off. -/
theorem nodelay_toggle_witness :
    (ConnectorService.connect_with_maybe_proxy testOracle testSvc
        { uri := testUriHttps, proxy_intercepted := none } false).2.head?
      = some (.tcpConnect testUriHttps true) :=
  ((nodelay_toggle testOracle testSvc { uri := testUriHttps, proxy_intercepted := none }
    false rfl rfl).1 rfl).1

/-- C10: for both `BoringTlsConn` transport shapes (direct TLS over TCP, and
TLS over a CONNECT-tunneled plain proxy stream) the connected descriptor
reports negotiated-h2 exactly when the TLS layer's selected ALPN protocol is
"h2", for either value of the tls-info flag. -/
theorem negotiated_h2_iff_alpn (s : Ssl) (sock : TcpSock) (b ti : Bool) :
    ((Conn.connected { inner := .boring (.tokioIo (.ssl s (.tokioIo (.tokioIo (.tcp sock))))),
                       is_proxy := b, tls_info := ti }).negotiatedH2
      = decide (s.selectedAlpn = some "h2"))
    ∧ ((Conn.connected { inner := .boring (.tokioIo (.ssl s
                           (.tokioIo (.mHttp (.tokioIo (.tcp sock)))))),
                         is_proxy := b, tls_info := ti }).negotiatedH2
      = decide (s.selectedAlpn = some "h2")) := by
  rw [conn_connected_negotiatedH2, conn_connected_negotiatedH2]
  constructor <;>
    by_cases h : s.selectedAlpn = some "h2" <;>
      simp [Transport.connected, h, Connected.negotiated_h2, Connected.new]

/-- C10 witness: the fixture TLS session (ALPN "h2") over direct TCP reports
negotiated-h2 with the tls-info flag off. -/
theorem negotiated_h2_iff_alpn_witness :
    (Conn.connected { inner := .boring (.tokioIo (.ssl testSsl (.tokioIo (.tokioIo
                        (.tcp { addr := testUriHttps, nodelay := false }))))),
                      is_proxy := false, tls_info := false }).negotiatedH2
      = decide (testSsl.selectedAlpn = some "h2") :=
  (negotiated_h2_iff_alpn testSsl { addr := testUriHttps, nodelay := false } false false).1

end Wreq
